import Mathlib

/-!
Verification of the anathema container widgets (HStack, ZStack) against
their natural-language specification.  The definitions below are a shallow
embedding of `src/anathema-widgets/src/hstack.rs` and
`src/anathema-widgets/src/zstack.rs`.  Types and operations that live in
other crates of the repository (the `Constraints` arithmetic, the
`Horizontal` and `Stacked` layout strategies, the paint context) are
modelled from the specification and marked as such in their doc comments.
-/

/-- The `Size { width, height }` value type from `anathema_render::Size`
(non-negative). -/
structure Size where
  width : Nat
  height : Nat
deriving Repr, DecidableEq

/-- A screen position: `{x, y}` as signed integers. -/
structure Pos where
  x : Int
  y : Int
deriving Repr, DecidableEq

/-- Layout constraints: min/max bounds for width and height, all
non-negative integers. -/
structure Constraints where
  min_width : Nat
  max_width : Nat
  min_height : Nat
  max_height : Nat
deriving Repr, DecidableEq

/-- The `min ≤ max` well-formedness invariant on constraints. -/
def Constraints.wf (c : Constraints) : Prop :=
  c.min_width ≤ c.max_width ∧ c.min_height ≤ c.max_height

instance (c : Constraints) : Decidable c.wf := by
  unfold Constraints.wf; infer_instance

/-- The `HStack` widget state: four optional sizing attributes.  A
`Value<usize>` is modelled by the `Option Nat` its `value()` accessor
yields (`none` = unset/`Value::Empty`). -/
structure HStack where
  width : Option Nat
  height : Option Nat
  min_width : Option Nat
  min_height : Option Nat
deriving Repr, DecidableEq

/-- The `ZStack` widget state: four `Option<usize>` sizing attributes. -/
structure ZStack where
  width : Option Nat
  height : Option Nat
  min_width : Option Nat
  min_height : Option Nat
deriving Repr, DecidableEq

/-- The attribute-mutation prefix of `HStack::layout`
(`hstack.rs` lines 68-79), applied to the incoming constraints:
first tighten `max_width`/`max_height` with the declared `width`/`height`
(plain `min`), then raise `min_width`/`min_height` with the declared
minimums (plain `max`).  No clamping between min and max is performed. -/
def HStack.tighten (s : HStack) (c : Constraints) : Constraints :=
  let c1 := match s.width with
    | some w => { c with max_width := min c.max_width w }
    | none => c
  let c2 := match s.height with
    | some h => { c1 with max_height := min c1.max_height h }
    | none => c1
  let c3 := match s.min_width with
    | some mw => { c2 with min_width := max c2.min_width mw }
    | none => c2
  match s.min_height with
    | some mh => { c3 with min_height := max c3.min_height mh }
    | none => c3

/-- Modelled from the spec: `Constraints::make_width_tight` is not under
`src/` (it lives in the widget-core crate).  Per §4.1 the max bound is
tightened to `min(current_max, declared)`, and the tie-break rule says
that if a bad configuration makes `min > max` the axis max is clamped up
to min, favouring the min floor. -/
def Constraints.make_width_tight (c : Constraints) (w : Nat) : Constraints :=
  let m := min c.max_width w
  { c with max_width := max m c.min_width }

/-- Modelled from the spec: `Constraints::make_height_tight`, symmetric to
`Constraints.make_width_tight` on the height axis. -/
def Constraints.make_height_tight (c : Constraints) (h : Nat) : Constraints :=
  let m := min c.max_height h
  { c with max_height := max m c.min_height }

/-- The attribute-mutation prefix of `ZStack::layout`
(`zstack.rs` lines 81-92): first raise `min_width`/`min_height` with the
declared minimums (plain `max`), then apply `make_width_tight` /
`make_height_tight` with the declared `width`/`height`. -/
def ZStack.tighten (s : ZStack) (c : Constraints) : Constraints :=
  let c1 := match s.min_width with
    | some mw => { c with min_width := max c.min_width mw }
    | none => c
  let c2 := match s.min_height with
    | some mh => { c1 with min_height := max c1.min_height mh }
    | none => c1
  let c3 := match s.width with
    | some w => c2.make_width_tight w
    | none => c2
  match s.height with
    | some h => c3.make_height_tight h
    | none => c3

/-- The declared-width tightening done at the start of `HStack::layout`
(`hstack.rs` lines 68-70), in isolation:
`max_width := min(max_width, w)`. -/
def hstackWidthTighten (w : Nat) (c : Constraints) : Constraints :=
  { c with max_width := min c.max_width w }

/-- Max-tightening followed by min-raising on the width axis, the order
used by `HStack::layout` for a declared fixed size `w` and a declared
minimum `m` on the same axis (plain field updates, as in the source). -/
def hstackOrderWidth (w m : Nat) (c : Constraints) : Constraints :=
  let c1 := { c with max_width := min c.max_width w }
  { c1 with min_width := max c1.min_width m }

/-- Min-raising followed by `make_width_tight` on the width axis, the
order used by `ZStack::layout` for a declared minimum `m` and a declared
fixed size `w` on the same axis. -/
def zstackOrderWidth (w m : Nat) (c : Constraints) : Constraints :=
  ({ c with min_width := max c.min_width m }).make_width_tight w

/-- A laid-out child as seen by the position pass: its outer size (already
computed by the layout pass, read via `outer_size()`) and its currently
stored position (written by `position`). -/
structure ChildNode where
  outerSize : Size
  pos : Pos
deriving Repr, DecidableEq

/-- The `HStack::position` pass (`hstack.rs` lines 84-90): walk the children in
order, position each at the running cursor `pos` (starting at the origin
`ctx.pos`), then advance `pos.x` by the child's outer width. -/
def hstackPosition (p : Pos) : List ChildNode → List ChildNode
  | [] => []
  | c :: cs =>
      { c with pos := p } ::
        hstackPosition { p with x := p.x + (c.outerSize.width : Int) } cs

/-- The `ZStack::position` pass (`zstack.rs` lines 97-101): every child is
positioned at `ctx.pos` itself. -/
def zstackPosition (p : Pos) : List ChildNode → List ChildNode
  | [] => []
  | c :: cs => { c with pos := p } :: zstackPosition p cs

/-- Sum of the outer widths of a list of children. -/
def sumWidths (cs : List ChildNode) : Nat :=
  cs.foldr (fun c acc => c.outerSize.width + acc) 0

/-- A glyph written to a terminal cell. -/
abbrev Glyph := Char

/-- The compositing surface, modelled from the spec (§2, §6): a mapping
from cells to the glyph currently visible there (`none` = untouched). -/
def Surface : Type := Pos → Option Glyph

/-- A child as seen by the ZStack paint pass, modelled from the spec:
what the child's own paint pass writes at each cell of the surface
region it is handed (`none` where it writes nothing). -/
structure PaintChild where
  coverage : Pos → Option Glyph

/-- Whether a paint child covers (writes to) a given cell. -/
def PaintChild.covers (c : PaintChild) (p : Pos) : Bool :=
  (c.coverage p).isSome

/-- Painting one child onto a surface, clipped to a region: modelled from
the spec, cells the child writes inside the region take its glyph, all
other cells keep their previous content. -/
def paintChild (region : Pos → Bool) (s : Surface) (c : PaintChild) : Surface :=
  fun p =>
    if region p then
      match c.coverage p with
      | some g => some g
      | none => s p
    else s p

/-- The `ZStack::paint` pass (`zstack.rs` lines 103-112): for each child, in
insertion order, derive a sub-context of the ZStack's own paint context
(`ctx.sub_context(None)`, the same region every iteration) and paint the
child into it. -/
def zstackPaint (region : Pos → Bool) (cs : List PaintChild) (s : Surface) :
    Surface :=
  cs.foldl (paintChild region) s

/-- A child of a horizontal stack as seen by the layout pass: its layout
function, mapping the constraints it is handed to the size it reports. -/
def LayoutChild : Type := Constraints → Size

/-- Modelled from the spec: the per-child loop of the `Horizontal`
stacking strategy (§4.2, not under `src/`).  Each child receives the
parent constraints with `max_width` reduced by the width consumed by
prior siblings (saturating at zero, so once the accumulated width meets
or exceeds the available max width the remaining children get zero-width
constraints); `max_height` is unchanged; the child's reported width is
added to the consumed total. -/
def horizontalGo (cons : Constraints) (budget : Nat) (consumed : Nat) :
    List LayoutChild → List Size
  | [] => []
  | f :: fs =>
      let s := f { cons with max_width := budget - consumed }
      s :: horizontalGo cons budget (consumed + s.width) fs

/-- Modelled from the spec: the sizes the `Horizontal` strategy assigns to
the children, in order, starting from zero consumed width against the
container's `max_width` budget. -/
def horizontalChildSizes (cons : Constraints) (children : List LayoutChild) :
    List Size :=
  horizontalGo cons cons.max_width 0 children

/-- The child sizes produced by `HStack::layout` (`hstack.rs` lines
67-82): apply the attribute tightening prefix, then delegate to the
`Horizontal` strategy (forward direction) over the children. -/
def HStack.layoutChildSizes (s : HStack) (c : Constraints)
    (children : List LayoutChild) : List Size :=
  horizontalChildSizes (s.tighten c) children

/-- Modelled from the spec: the layout function of one `border(text(i))`
child from the fixed-width test scenario (§8) — a widget that lays out to
width 3 (a thin border around a single glyph, 3 cells tall), clamped by
the max bounds of the constraints it receives. -/
def borderTextChild : LayoutChild :=
  fun c => { width := min 3 c.max_width, height := min 3 c.max_height }

/-- Modelled from the spec: the constraints each child of the
`Horizontal` strategy receives, in order (same budget accounting as
`horizontalGo`, recording the derived constraints instead of the reported
sizes). -/
def horizontalGoCons (cons : Constraints) (budget : Nat) (consumed : Nat) :
    List LayoutChild → List Constraints
  | [] => []
  | f :: fs =>
      let cc := { cons with max_width := budget - consumed }
      cc :: horizontalGoCons cons budget (consumed + (f cc).width) fs

/-- The constraints handed to each child of `HStack::layout`, in order. -/
def HStack.layoutChildConstraints (s : HStack) (c : Constraints)
    (children : List LayoutChild) : List Constraints :=
  let tc := s.tighten c
  horizontalGoCons tc tc.max_width 0 children

/-- The `HStack` of the fixed-width test scenario: `width=6`, everything
else unset (`hstack.rs` test `fixed_width_stack`). -/
def fixedWidthHStack : HStack :=
  { width := some 6, height := none, min_width := none, min_height := none }

/-- The fixed-width scenario's children: 10 identical `border(text(i))`
children, each laying out to width 3. -/
def fixedWidthChildren : List LayoutChild := List.replicate 10 borderTextChild

/-- Default window-sized constraints for the fake terminal of the test
(inner region 15 columns by 6 rows, min bounds zero). -/
def windowConstraints : Constraints :=
  { min_width := 0, max_width := 15, min_height := 0, max_height := 6 }

/-- A size is degenerate (empty) when it covers no cells, i.e. it renders
empty output. -/
def Size.isEmpty (s : Size) : Prop := s.width * s.height = 0

instance (s : Size) : Decidable s.isEmpty := by
  unfold Size.isEmpty; infer_instance

/-- The per-cycle resolution environment for the four sizing attributes:
what each of a widget's bindings resolves to in the current context
(`none` = unset). -/
structure ResolveEnv where
  width : Option Nat
  height : Option Nat
  min_width : Option Nat
  min_height : Option Nat
deriving Repr, DecidableEq

/-- The `HStack::update` operation (`hstack.rs` lines 60-65): re-resolve
the four sizing attributes from the context, nothing else. -/
def HStack.update (env : ResolveEnv) (_s : HStack) : HStack :=
  { width := env.width, height := env.height,
    min_width := env.min_width, min_height := env.min_height }

/-- The transient per-node geometry produced by the layout and position
passes (constraints handed down, computed size, assigned position). -/
structure Geometry where
  constraints : Constraints
  size : Size
  pos : Pos
deriving Repr, DecidableEq

/-- An `HStack` node together with its geometry; `HStack.update` acts on
the widget part only. -/
def hstackNodeUpdate (env : ResolveEnv) (n : HStack × Geometry) :
    HStack × Geometry :=
  (HStack.update env n.1, n.2)

/-- The method names defined by `impl Widget for HStack`
(`hstack.rs` lines 55-91). -/
def hstackWidgetMethods : List String := ["kind", "update", "layout", "position"]

/-- The method names defined by `impl Widget for ZStack`
(`zstack.rs` lines 71-113). -/
def zstackWidgetMethods : List String := ["kind", "layout", "position", "paint"]

/-- A factory context / attribute set: the resolved optional value of each
named sizing attribute (`context.get(name)` / the `values.width()` family
of accessors, both infallible). -/
def AttrCtx : Type := String → Option Nat

/-- The construction-time error type the factory interface allows
(`anathema_widget_core::error::Error`, not inspected by these widgets). -/
def WidgetError : Type := String

/-- The factory `HStackFactory::make` embedded from `hstack.rs` lines 95-104:
construct the widget from the `width`/`height` attributes, overwrite the
min fields from `min-width`/`min-height`, return `Ok`. -/
def HStackFactory.make (ctx : AttrCtx) : Except WidgetError HStack :=
  let width := ctx "width"
  let height := ctx "height"
  let widget : HStack :=
    { width := width, height := height, min_width := none, min_height := none }
  let widget := { widget with
    min_width := ctx "min-width", min_height := ctx "min-height" }
  .ok widget

/-- The factory `ZStackFactory::make` embedded from `zstack.rs` lines 117-129:
construct the widget from the `width`/`height` attributes, overwrite the
min fields from `min-width`/`min-height`, return `Ok`. -/
def ZStackFactory.make (ctx : AttrCtx) : Except WidgetError ZStack :=
  let width := ctx "width"
  let height := ctx "height"
  let widget : ZStack :=
    { width := width, height := height, min_width := none, min_height := none }
  let widget := { widget with
    min_width := ctx "min-width", min_height := ctx "min-height" }
  .ok widget

/-- Auxiliary: `hstackPosition` keeps the number of children. -/
theorem hstackPosition_length (p : Pos) (cs : List ChildNode) :
    (hstackPosition p cs).length = cs.length := by
  induction cs generalizing p with
  | nil => rfl
  | cons c cs ih => simp [hstackPosition, ih]

/-- C5: `HStack::position` places child `i` (in layout order) at
`x = origin.x + sum of the outer widths of children 0..i` and at
`y = origin.y`, with no cross-axis offset. -/
theorem hstack_position_offsets (p : Pos) (cs : List ChildNode) (i : Nat)
    (h : i < cs.length) :
    ((hstackPosition p cs)[i]?).map ChildNode.pos =
      some { x := p.x + (sumWidths (cs.take i) : Int), y := p.y } := by
  induction cs generalizing p i with
  | nil => simp at h
  | cons c cs ih =>
    cases i with
    | zero =>
        simp [hstackPosition, sumWidths]
    | succ i =>
        have h' : i < cs.length := by simpa using h
        have := ih { p with x := p.x + (c.outerSize.width : Int) } i h'
        simp only [hstackPosition, List.getElem?_cons_succ]
        rw [this]
        simp only [List.take_succ_cons, sumWidths, List.foldr_cons,
          Option.some.injEq]
        refine congrArg (fun x => Pos.mk x p.y) ?_
        push_cast
        ring

/-- Witness for C5 at a concrete two-child stack and origin `(2, 5)`. -/
theorem hstack_position_offsets_witness :
    1 < ([⟨⟨3, 2⟩, ⟨9, 9⟩⟩, ⟨⟨4, 2⟩, ⟨9, 9⟩⟩] : List ChildNode).length ∧
    ((hstackPosition ⟨2, 5⟩
        [⟨⟨3, 2⟩, ⟨9, 9⟩⟩, ⟨⟨4, 2⟩, ⟨9, 9⟩⟩])[1]?).map ChildNode.pos =
      some { x := 5, y := 5 } :=
  ⟨by decide,
   hstack_position_offsets ⟨2, 5⟩ [⟨⟨3, 2⟩, ⟨9, 9⟩⟩, ⟨⟨4, 2⟩, ⟨9, 9⟩⟩] 1
     (by decide)⟩

/-- C6: `ZStack::position` assigns every child exactly the origin itself,
with no offset accumulation across children. -/
theorem zstack_position_all_origin (p : Pos) (cs : List ChildNode) :
    (zstackPosition p cs).map ChildNode.pos = List.replicate cs.length p := by
  induction cs with
  | nil => rfl
  | cons c cs ih => simp [zstackPosition, ih, List.replicate_succ]

/-- Auxiliary: the HStack position pass is idempotent for a fixed origin. -/
theorem hstackPosition_idem (p : Pos) (cs : List ChildNode) :
    hstackPosition p (hstackPosition p cs) = hstackPosition p cs := by
  induction cs generalizing p with
  | nil => rfl
  | cons c cs ih => simp [hstackPosition, ih]

/-- Auxiliary: the ZStack position pass is idempotent for a fixed origin. -/
theorem zstackPosition_idem (p : Pos) (cs : List ChildNode) :
    zstackPosition p (zstackPosition p cs) = zstackPosition p cs := by
  induction cs with
  | nil => rfl
  | cons c cs ih => simp [zstackPosition, ih]

/-- C7: running the position pass of HStack or ZStack twice with the same
origin yields exactly the same child positions as running it once. -/
theorem position_pass_idempotent (p : Pos) (cs : List ChildNode) :
    hstackPosition p (hstackPosition p cs) = hstackPosition p cs ∧
    zstackPosition p (zstackPosition p cs) = zstackPosition p cs :=
  ⟨hstackPosition_idem p cs, zstackPosition_idem p cs⟩

/-- C10: both factories are total — for every attribute context they
return `Ok` with the widget's `width`/`height` taken from the `width` and
`height` attributes and `min_width`/`min_height` from the `min-width` and
`min-height` attributes; the error path of the interface is never used. -/
theorem factories_always_ok (ctx : AttrCtx) :
    HStackFactory.make ctx = Except.ok
      { width := ctx "width", height := ctx "height",
        min_width := ctx "min-width", min_height := ctx "min-height" } ∧
    ZStackFactory.make ctx = Except.ok
      { width := ctx "width", height := ctx "height",
        min_width := ctx "min-width", min_height := ctx "min-height" } :=
  ⟨rfl, rfl⟩

/-- C8: with `width=6` and 10 identical width-3 children, `HStack::layout`
lays out exactly the first 2 children at their full width `3`; every
remaining child receives a zero width budget (its derived constraints
have `max_width = 0`) and reports a degenerate size with width `0`,
covering no cells. -/
theorem hstack_fixed_width_scenario :
    HStack.layoutChildSizes fixedWidthHStack windowConstraints
        fixedWidthChildren =
      [⟨3, 3⟩, ⟨3, 3⟩, ⟨0, 3⟩, ⟨0, 3⟩, ⟨0, 3⟩, ⟨0, 3⟩, ⟨0, 3⟩, ⟨0, 3⟩,
        ⟨0, 3⟩, ⟨0, 3⟩] ∧
    (∀ cc ∈ (HStack.layoutChildConstraints fixedWidthHStack windowConstraints
        fixedWidthChildren).drop 2, cc.max_width = 0) ∧
    (∀ s ∈ (HStack.layoutChildSizes fixedWidthHStack windowConstraints
        fixedWidthChildren).drop 2, s.isEmpty) := by
  refine ⟨by decide, by decide, by decide⟩

/-- C9 counterexample: the `impl Widget for ZStack` block defines no
`update` operation at all, so not every container widget provides one. -/
theorem zstack_update_missing : ¬ ("update" ∈ zstackWidgetMethods) := by
  decide

/-- C9 (amended): `HStack` provides `update`, which re-resolves the four
sizing attributes from the context and has no other effect — the node's
constraints, size and position are left unchanged; `ZStack` (whose
attributes are plain options fixed at construction) defines no `update`
operation in its widget implementation. -/
theorem container_update_contract (env : ResolveEnv) (n : HStack × Geometry) :
    (hstackNodeUpdate env n).2 = n.2 ∧
    (hstackNodeUpdate env n).1.width = env.width ∧
    (hstackNodeUpdate env n).1.height = env.height ∧
    (hstackNodeUpdate env n).1.min_width = env.min_width ∧
    (hstackNodeUpdate env n).1.min_height = env.min_height ∧
    "update" ∈ hstackWidgetMethods ∧ ¬ ("update" ∈ zstackWidgetMethods) :=
  ⟨rfl, rfl, rfl, rfl, rfl, by decide, by decide⟩

/-- C3 counterexample: for constraints `{min_width = 8, max_width = 10}`
and declared width `5 ≤ 10`, the tightening leaves `min_width = 8 > 5`,
so `min_width ≤ w` fails. -/
theorem hstack_width_tighten_cex :
    5 ≤ (⟨8, 10, 0, 10⟩ : Constraints).max_width ∧
    ¬ ((hstackWidthTighten 5 ⟨8, 10, 0, 10⟩).max_width = 5 ∧
       (hstackWidthTighten 5 ⟨8, 10, 0, 10⟩).min_width ≤ 5) := by
  decide

/-- C3 (amended): for `w ≤ C.max_width` the declared-width tightening of
`HStack::layout` yields `max_width = w` and leaves `min_width` unchanged;
in particular `min_width ≤ w` holds exactly when it already held on `C`. -/
theorem hstack_width_tighten_spec (c : Constraints) (w : Nat)
    (h : w ≤ c.max_width) :
    (hstackWidthTighten w c).max_width = w ∧
    (hstackWidthTighten w c).min_width = c.min_width ∧
    (c.min_width ≤ w → (hstackWidthTighten w c).min_width ≤ w) := by
  refine ⟨?_, rfl, fun hm => hm⟩
  simpa [hstackWidthTighten] using Nat.min_eq_right h

/-- Witness for C3's amended theorem at `C = {0, 10, 0, 10}`, `w = 5`. -/
theorem hstack_width_tighten_spec_witness :
    5 ≤ (⟨0, 10, 0, 10⟩ : Constraints).max_width ∧
    ((hstackWidthTighten 5 ⟨0, 10, 0, 10⟩).max_width = 5 ∧
     (hstackWidthTighten 5 ⟨0, 10, 0, 10⟩).min_width = 0 ∧
     (0 ≤ 5 → (hstackWidthTighten 5 ⟨0, 10, 0, 10⟩).min_width ≤ 5)) :=
  ⟨by decide, hstack_width_tighten_spec ⟨0, 10, 0, 10⟩ 5 (by decide)⟩

/-- C4 counterexample: for constraints `{0, 10}` on the width axis,
declared size `5` and declared minimum `8`, the HStack order gives
`{min 8, max 5}` while the ZStack order gives `{min 8, max 8}` — the two
application orders do not agree. -/
theorem tighten_order_cex :
    hstackOrderWidth 5 8 ⟨0, 10, 0, 10⟩ ≠ zstackOrderWidth 5 8 ⟨0, 10, 0, 10⟩ := by
  decide

/-- C4 (amended): the two application orders agree whenever the raised min
does not exceed the tightened max; in a conflicting configuration the
ZStack order clamps the axis max up to the min, while the HStack order
leaves the axis max strictly below the min (no clamping). -/
theorem tighten_order_spec (c : Constraints) (w m : Nat) :
    (max c.min_width m ≤ min c.max_width w →
      hstackOrderWidth w m c = zstackOrderWidth w m c) ∧
    (min c.max_width w < max c.min_width m →
      (zstackOrderWidth w m c).max_width = (zstackOrderWidth w m c).min_width ∧
      (hstackOrderWidth w m c).max_width <
        (hstackOrderWidth w m c).min_width) := by
  obtain ⟨a, b, d, e⟩ := c
  refine ⟨fun h => ?_, fun h => ?_⟩ <;>
    simp only [hstackOrderWidth, zstackOrderWidth, Constraints.make_width_tight,
      Constraints.mk.injEq, true_and, and_true] at h ⊢ <;>
    omega

/-- Witness for C4's amended theorem: the agreeing case at
`(w, m) = (5, 3)` and the conflicting case at `(w, m) = (5, 8)`, both on
constraints `{0, 10, 0, 10}`. -/
theorem tighten_order_spec_witness :
    hstackOrderWidth 5 3 ⟨0, 10, 0, 10⟩ = zstackOrderWidth 5 3 ⟨0, 10, 0, 10⟩ ∧
    ((zstackOrderWidth 5 8 ⟨0, 10, 0, 10⟩).max_width =
        (zstackOrderWidth 5 8 ⟨0, 10, 0, 10⟩).min_width ∧
      (hstackOrderWidth 5 8 ⟨0, 10, 0, 10⟩).max_width <
        (hstackOrderWidth 5 8 ⟨0, 10, 0, 10⟩).min_width) :=
  ⟨(tighten_order_spec ⟨0, 10, 0, 10⟩ 5 3).1 (by decide),
   (tighten_order_spec ⟨0, 10, 0, 10⟩ 5 8).2 (by decide)⟩

/-- Auxiliary: HStack's attribute tightening keeps `min ≤ max` whenever
each axis's effective raised minimum stays below its effective tightened
maximum. -/
theorem hstack_tighten_wf (t : HStack) (c : Constraints)
    (h1 : max c.min_width ((t.min_width).getD 0) ≤
      min c.max_width ((t.width).getD c.max_width))
    (h2 : max c.min_height ((t.min_height).getD 0) ≤
      min c.max_height ((t.height).getD c.max_height)) :
    (t.tighten c).wf := by
  obtain ⟨tw, th, tmw, tmh⟩ := t
  obtain ⟨a, b, d, e⟩ := c
  cases tw <;> cases th <;> cases tmw <;> cases tmh <;>
    simp only [HStack.tighten, Constraints.wf, Option.getD_none,
      Option.getD_some] at h1 h2 ⊢ <;>
    omega

/-- Auxiliary: ZStack's attribute tightening keeps `min ≤ max` whenever
each axis's effective raised minimum stays below its effective tightened
maximum. -/
theorem zstack_tighten_wf (z : ZStack) (c : Constraints)
    (h1 : max c.min_width ((z.min_width).getD 0) ≤
      min c.max_width ((z.width).getD c.max_width))
    (h2 : max c.min_height ((z.min_height).getD 0) ≤
      min c.max_height ((z.height).getD c.max_height)) :
    (z.tighten c).wf := by
  obtain ⟨zw, zh, zmw, zmh⟩ := z
  obtain ⟨a, b, d, e⟩ := c
  cases zw <;> cases zh <;> cases zmw <;> cases zmh <;>
    simp only [ZStack.tighten, Constraints.make_width_tight,
      Constraints.make_height_tight, Constraints.wf, Option.getD_none,
      Option.getD_some] at h1 h2 ⊢ <;>
    omega

/-- C2 counterexample: for well-formed constraints `{0, 10, 0, 10}`, an
HStack declaring `width = 5` and `min-width = 8` hands the stacking
strategy constraints with `min_width = 8 > 5 = max_width` — the claimed
invariant is inverted, not clamped. -/
theorem stack_layout_invariant_cex :
    Constraints.wf ⟨0, 10, 0, 10⟩ ∧
    ¬ (HStack.tighten ⟨some 5, none, some 8, none⟩ ⟨0, 10, 0, 10⟩).wf := by
  decide

/-- C2 (amended): for well-formed constraints, the constraints that
`HStack::layout` and `ZStack::layout` hand to the stacking strategy
satisfy `min_width ≤ max_width` and `min_height ≤ max_height` provided,
on each axis, the effective raised minimum — `max` of the inherited min
and the declared minimum (0 when unset) — does not exceed the effective
tightened maximum — `min` of the inherited max and the declared size
(the inherited max when unset); without that proviso the bound can be
inverted (a declared minimum above the tightened max, or a declared size
below the inherited min). -/
theorem stack_layout_invariant (t : HStack) (z : ZStack) (c : Constraints)
    (_hc : c.wf)
    (ht1 : max c.min_width ((t.min_width).getD 0) ≤
      min c.max_width ((t.width).getD c.max_width))
    (ht2 : max c.min_height ((t.min_height).getD 0) ≤
      min c.max_height ((t.height).getD c.max_height))
    (hz1 : max c.min_width ((z.min_width).getD 0) ≤
      min c.max_width ((z.width).getD c.max_width))
    (hz2 : max c.min_height ((z.min_height).getD 0) ≤
      min c.max_height ((z.height).getD c.max_height)) :
    (t.tighten c).wf ∧ (z.tighten c).wf :=
  ⟨hstack_tighten_wf t c ht1 ht2, zstack_tighten_wf z c hz1 hz2⟩

/-- Witness for C2's amended theorem at concrete attribute sets and
constraints `{1, 10, 1, 10}`. -/
theorem stack_layout_invariant_witness :
    Constraints.wf ⟨1, 10, 1, 10⟩ ∧
    ((HStack.tighten ⟨some 5, some 6, some 2, some 3⟩ ⟨1, 10, 1, 10⟩).wf ∧
     (ZStack.tighten ⟨some 7, none, some 4, some 2⟩ ⟨1, 10, 1, 10⟩).wf) :=
  ⟨by decide,
   stack_layout_invariant ⟨some 5, some 6, some 2, some 3⟩
     ⟨some 7, none, some 4, some 2⟩ ⟨1, 10, 1, 10⟩ (by decide) (by decide)
     (by decide) (by decide) (by decide)⟩

/-- C1: the ZStack paint pass paints the children in insertion order, each
into the same sub-region derived from the ZStack's own surface region; at
any cell of that region the finally visible glyph is the one painted by
the last-inserted child covering that cell (cells no child covers keep
the prior surface content, and cells outside the region are never
written). -/
theorem zstack_paint_last_wins (region : Pos → Bool) (cs : List PaintChild)
    (s : Surface) (p : Pos) :
    zstackPaint region cs s p =
      if region p then
        ((cs.filter (fun c => c.covers p)).getLast?).elim (s p)
          (fun c => c.coverage p)
      else s p := by
  induction cs using List.reverseRecOn with
  | nil =>
      simp [zstackPaint]
  | append_singleton cs c ih =>
      have hfold : zstackPaint region (cs ++ [c]) s =
          paintChild region (zstackPaint region cs s) c := by
        simp [zstackPaint, List.foldl_append]
      rw [hfold]
      unfold paintChild
      rcases hcov : c.coverage p with _ | g
      · have hc : c.covers p = false := by
          simp [PaintChild.covers, hcov]
        rw [List.filter_append]
        simp [hc, hcov, ih]
      · have hc : c.covers p = true := by
          simp [PaintChild.covers, hcov]
        rw [List.filter_append]
        cases hr : region p <;>
          simp [hr, hc, hcov, List.getLast?_concat, ih]
